import Mathlib

/-!
Verification of the task-manager core (`src/task_manager.py`): the persistence
adapter (`load_tasks` / `save_tasks`), the `Task` record, and the `TaskManager`
store operations.  The Python module is shallowly embedded:

* the JSON file on disk is a `FileState` (missing, unreadable/corrupt, or a
  stored parsed document); the JSON text layer is abstracted away and the file
  holds the parsed array of raw objects directly (Python's `json` round-trips
  strings, arbitrary-precision integers and `null` faithfully);
* a raw loaded object is a `RawTask` whose fields are `Option`s: `none` means
  the key is absent (for `number` it also covers a present non-integer value,
  which `isinstance(task.number, int)` treats the same way);
* exceptions are modelled by `Option`: `Task(**task)` raises `TypeError` when
  the required `title`/`description` keys are absent or the element is not an
  object, so record reconstruction returns `none` in those cases;
* `datetime.now()` is modelled by an explicit `now : String` argument;
* text printed with `console.print` is modelled by the `out` field of the
  store state `Sys`; the Python store methods themselves return `None` on
  every path, so a method call yields only the mutated state plus the printed
  lines.  (Console output of the adapter and of `__init__` is not modelled;
  no property here depends on it.)
-/

namespace TaskMgr

/-- A raw task object as parsed from the JSON document.  A field is `none`
when the key is absent from the object (for `number`, also when the stored
value is not an integer). -/
structure RawTask where
  title : Option String := none
  description : Option String := none
  status : Option String := none
  created : Option String := none
  number : Option Int := none
deriving DecidableEq

/-- One element of the stored JSON array: either an object or some other
JSON value (on which `Task(**task)` raises `TypeError`). -/
inductive PDoc where
  | objDoc (r : RawTask)
  | nonObjDoc
deriving DecidableEq

/-- The state of `tasks.json`: absent, existing but unreadable/unparsable,
or storing a parsed JSON array of task objects. -/
inductive FileState where
  | absent
  | unreadable
  | stored (docs : List PDoc)
deriving DecidableEq

/-- `load_tasks` (src/task_manager.py lines 43-64): if the file does not
exist, write an empty array and return `[]`; on `JSONDecodeError`/`IOError`
return `[]`; otherwise return the parsed document.  The first component is
the file state after the call. -/
def load_tasks : FileState → FileState × List PDoc
  | FileState.absent => (FileState.stored [], [])
  | FileState.unreadable => (FileState.unreadable, [])
  | FileState.stored ds => (FileState.stored ds, ds)

/-- `save_tasks` (lines 65-74): overwrite the whole file with the given
document. -/
def save_tasks (docs : List PDoc) (_fs : FileState) : FileState :=
  FileState.stored docs

/-- The in-memory `Task` object (lines 78-90).  `number` stays `Option Int`
because `Task.__init__` accepts `number=None`. -/
structure Task where
  title : String
  description : String
  status : String
  created : String
  number : Option Int
deriving DecidableEq

/-- `Task.mark_complete` (lines 91-92). -/
def Task.mark_complete (t : Task) : Task :=
  { t with status := "Complete" }

/-- `Task(**task)` on a loaded object (lines 79-90 applied at line 106):
raises (`none`) when the element is not an object or lacks the required
`title`/`description` keys; otherwise applies the defaults
`status='Incomplete'`, `created = created or datetime.now()` (a missing or
empty `created` is replaced by the current time) and `number=None`. -/
def taskOfDoc (now : String) : PDoc → Option Task
  | PDoc.nonObjDoc => none
  | PDoc.objDoc r =>
    match r.title, r.description with
    | some t, some d =>
      let c := (r.created).getD ""
      some { title := t, description := d,
             status := (r.status).getD "Incomplete",
             created := if c = "" then now else c,
             number := r.number }
    | _, _ => none

/-- `task.__dict__` as written back to the JSON document. -/
def docOfTask (t : Task) : PDoc :=
  PDoc.objDoc { title := some t.title, description := some t.description,
                status := some t.status, created := some t.created,
                number := t.number }

/-- The number-repair loop of `TaskManager.__init__` (lines 108-112):

    next_number = 1
    for task in self.tasks:
        if not isinstance(task.number, int) or task.number is None:
            task.number = next_number
        next_number = max(next_number, task.number + 1)

Returns the repaired list together with the final `next_number`. -/
def fixTasks : Int → List Task → List Task × Int
  | next, [] => ([], next)
  | next, t :: ts =>
    match t.number with
    | none =>
      let r := fixTasks (max next (next + 1)) ts
      ({ t with number := some next } :: r.1, r.2)
    | some k =>
      let r := fixTasks (max next (k + 1)) ts
      (t :: r.1, r.2)

/-- `admissible next ns` holds when every integer `number` in the loaded
document is at least the repair loop's running `next_number` at its
position.  Under this proviso each loaded integer exceeds every earlier
record's repaired number, so the repaired numbers come out strictly
increasing. -/
def admissible : Int → List (Option Int) → Bool
  | _, [] => true
  | next, none :: ns => admissible (next + 1) ns
  | next, some k :: ns => decide (next ≤ k) && admissible (k + 1) ns

/-- The observable state of a running `TaskManager`: the in-memory task
list and counter, the state of `tasks.json`, and the lines printed to the
console so far. -/
structure Sys where
  tasks : List Task
  next_number : Int
  file : FileState
  out : List String
deriving DecidableEq

/-- `TaskManager.__init__` (lines 97-115): load, reconstruct `Task` objects
(`none` models the `TypeError` escaping when an element is malformed),
repair numbers starting from 1, re-persist, and set
`self.next_number = next_number - 1`. -/
def tmInit (now : String) (fs : FileState) : Option Sys :=
  let r := load_tasks fs
  match (r.2).mapM (taskOfDoc now) with
  | none => none
  | some ts =>
    let p := fixTasks 1 ts
    some { tasks := p.1, next_number := p.2 - 1,
           file := save_tasks ((p.1).map docOfTask) r.1,
           out := [] }

/-- Console line printed by `add_task`. -/
def addedMsg (title : String) : String :=
  "Task \"" ++ title ++ "\" added successfully!"

/-- Console line printed by `mark_task_complete` on success (the source
also prints the module-load time as a second argument; only the message
text is modelled). -/
def completeMsg (title : String) : String :=
  "Task \"" ++ title ++ "\" marked as complete!"

/-- Console line printed by `mark_task_complete`, `delete_task` and
`update_task` when no task with the given title exists. -/
def notFoundMsg (title : String) : String :=
  "No task with title \"" ++ title ++ "\" found."

/-- Console line printed by `delete_task` on success. -/
def deletedMsg (title : String) : String :=
  "Task \"" ++ title ++ "\" deleted successfully!"

/-- Console line printed by `update_task` on success. -/
def updatedMsg (title : String) : String :=
  "Task \"" ++ title ++ "\" updated successfully!"

/-- Console line printed by `clear_task`. -/
def clearedMsg : String := "Task list cleared!"

/-- `TaskManager.add_task` (lines 118-128): bump the counter, append a new
Incomplete task stamped with the current time and the bumped counter, and
save the whole collection. -/
def add_task (s : Sys) (title description : String) (now : String) : Sys :=
  let n := s.next_number + 1
  let t : Task := { title := title, description := description,
                    status := "Incomplete", created := now, number := some n }
  let tasks := s.tasks ++ [t]
  { tasks := tasks, next_number := n,
    file := save_tasks (tasks.map docOfTask) s.file,
    out := s.out ++ [addedMsg title] }

/-- The `for task in self.tasks` loop of `mark_task_complete`: completes
the first task whose title matches and reports whether one was found. -/
def markGo : List Task → String → List Task × Bool
  | [], _ => ([], false)
  | t :: ts, title =>
    if t.title = title then (t.mark_complete :: ts, true)
    else
      let r := markGo ts title
      (t :: r.1, r.2)

/-- `TaskManager.mark_task_complete` (lines 130-143): complete the first
title match and print a success line, or print a not-found line.  It never
saves and returns `None` on every path. -/
def mark_task_complete (s : Sys) (title : String) : Sys :=
  let r := markGo s.tasks title
  { s with tasks := r.1,
           out := s.out ++ [if r.2 then completeMsg title else notFoundMsg title] }

/-- The loop of `delete_task`: `self.tasks.remove(task)` removes exactly
the first title match. -/
def deleteGo : List Task → String → List Task × Bool
  | [], _ => ([], false)
  | t :: ts, title =>
    if t.title = title then (ts, true)
    else
      let r := deleteGo ts title
      (t :: r.1, r.2)

/-- `TaskManager.delete_task` (lines 160-173): remove the first title match
and print a success line, or print a not-found line.  It never saves. -/
def delete_task (s : Sys) (title : String) : Sys :=
  let r := deleteGo s.tasks title
  { s with tasks := r.1,
           out := s.out ++ [if r.2 then deletedMsg title else notFoundMsg title] }

/-- `TaskManager.clear_task` (lines 175-181): empty the list and print a
line.  It never saves. -/
def clear_task (s : Sys) : Sys :=
  { s with tasks := [], out := s.out ++ [clearedMsg] }

/-- The loop of `update_task`, given the two strings `i1`, `i2` solicited
by the `input()` calls at lines 199-200: a non-empty response replaces the
corresponding field of the first title match, an empty one keeps it. -/
def updateGo (i1 i2 : String) : List Task → String → List Task × Bool
  | [], _ => ([], false)
  | t :: ts, title =>
    if t.title = title then
      ({ t with title := if i1 = "" then t.title else i1,
                description := if i2 = "" then t.description else i2 } :: ts, true)
    else
      let r := updateGo i1 i2 ts title
      (t :: r.1, r.2)

/-- `TaskManager.update_task` (lines 184-207).  The parameters `new_title`
and `new_description` are accepted but immediately shadowed by the
`input()` calls inside the loop, so they are unused; the interactive
responses `i1`, `i2` decide the new field values.  It never saves. -/
def update_task (s : Sys) (title : String)
    (new_title new_description : Option String) (i1 i2 : String) : Sys :=
  let r := updateGo i1 i2 s.tasks title
  { s with tasks := r.1,
           out := s.out ++ [if r.2 then updatedMsg title else notFoundMsg title] }

/-- The `save_tasks([task.__dict__ for task in task_manager.tasks])` call
the menu loop in `main` performs after every store operation
(lines 277-296). -/
def loop_save (s : Sys) : Sys :=
  { s with file := FileState.stored ((s.tasks).map docOfTask) }

/-- A sequence of `add_task` calls; each triple is
(title, description, timestamp of the call). -/
def addSeq : Sys → List (String × String × String) → Sys
  | s, [] => s
  | s, a :: rest => addSeq (add_task s a.1 a.2.1 a.2.2) rest

/-- The records a sequence of `add_task` calls appends when the counter
starts at `n`: each is Incomplete, stamped with its call's timestamp, and
numbered `n+1`, `n+2`, ... in order. -/
def newlyAdded : Int → List (String × String × String) → List Task
  | _, [] => []
  | n, a :: rest =>
    { title := a.1, description := a.2.1, status := "Incomplete",
      created := a.2.2, number := some (n + 1) } :: newlyAdded (n + 1) rest

/-- The single task of the persistence counterexample state. -/
def taskC2 : Task :=
  { title := "A", description := "d", status := "Incomplete",
    created := "c", number := some 1 }

/-- Concrete store state for the persistence counterexample: one incomplete
task, faithfully mirrored on disk. -/
def sysC2 : Sys :=
  { tasks := [taskC2],
    next_number := 1,
    file := FileState.stored [docOfTask taskC2],
    out := [] }

/-- Concrete store state for the update counterexample: one task "A". -/
def sysC3 : Sys :=
  { tasks := [{ title := "A", description := "d", status := "Incomplete",
                created := "c", number := some 1 }],
    next_number := 1, file := FileState.stored [], out := [] }

/-- Concrete store state for the result-signalling counterexample: one task
"A" that is already Complete. -/
def sysC4 : Sys :=
  { tasks := [{ title := "A", description := "d", status := "Complete",
                created := "c", number := some 1 }],
    next_number := 1, file := FileState.stored [], out := [] }

/-- Fresh store after `add_task("A", "d")` on an empty manager. -/
def sys1 : Sys :=
  add_task { tasks := [], next_number := 0, file := FileState.stored [],
             out := [] } "A" "d" "2024-01-01 00:00:00"

/-- Well-behaved loaded document for the number-repair witness. -/
def dsC1 : List PDoc :=
  [PDoc.objDoc { title := some "a", description := some "x",
                 created := some "c", number := some 1 },
   PDoc.objDoc { title := some "b", description := some "y",
                 created := some "c", number := none }]

/-- The reconstruction of `dsC1`. -/
def tsC1 : List Task :=
  [{ title := "a", description := "x", status := "Incomplete",
     created := "c", number := some 1 },
   { title := "b", description := "y", status := "Incomplete",
     created := "c", number := none }]

/-! ### Helper lemmas -/

theorem markGo_not_found : ∀ (ts : List Task) (T : String),
    (∀ t ∈ ts, t.title ≠ T) → markGo ts T = (ts, false) := by
  intro ts
  induction ts with
  | nil => intro T _; rfl
  | cons a ts ih =>
    intro T h
    have ha : ¬ a.title = T := h a (List.mem_cons_self a ts)
    simp [markGo, ha, ih T (fun t ht => h t (List.mem_cons_of_mem a ht))]

theorem deleteGo_not_found : ∀ (ts : List Task) (T : String),
    (∀ t ∈ ts, t.title ≠ T) → deleteGo ts T = (ts, false) := by
  intro ts
  induction ts with
  | nil => intro T _; rfl
  | cons a ts ih =>
    intro T h
    have ha : ¬ a.title = T := h a (List.mem_cons_self a ts)
    simp [deleteGo, ha, ih T (fun t ht => h t (List.mem_cons_of_mem a ht))]

theorem updateGo_not_found (i1 i2 : String) : ∀ (ts : List Task) (T : String),
    (∀ t ∈ ts, t.title ≠ T) → updateGo i1 i2 ts T = (ts, false) := by
  intro ts
  induction ts with
  | nil => intro T _; rfl
  | cons a ts ih =>
    intro T h
    have ha : ¬ a.title = T := h a (List.mem_cons_self a ts)
    simp [updateGo, ha, ih T (fun t ht => h t (List.mem_cons_of_mem a ht))]

theorem markGo_found : ∀ (ts : List Task) (T : String),
    (∃ t ∈ ts, t.title = T) →
    ∃ pre t post, ts = pre ++ t :: post ∧ (∀ u ∈ pre, u.title ≠ T) ∧
      t.title = T ∧ markGo ts T = (pre ++ t.mark_complete :: post, true) := by
  intro ts
  induction ts with
  | nil => intro T h; simp at h
  | cons a ts ih =>
    intro T h
    by_cases ha : a.title = T
    · exact ⟨[], a, ts, rfl, by simp, ha, by simp [markGo, ha]⟩
    · have h' : ∃ t ∈ ts, t.title = T := by
        rcases h with ⟨t, ht, htt⟩
        rcases List.mem_cons.mp ht with rfl | h2
        · exact absurd htt ha
        · exact ⟨t, h2, htt⟩
      rcases ih T h' with ⟨pre, t, post, hts, hpre, htt, hmark⟩
      refine ⟨a :: pre, t, post, by rw [hts]; rfl, ?_, htt, ?_⟩
      · intro u hu
        rcases List.mem_cons.mp hu with rfl | h2
        · exact ha
        · exact hpre u h2
      · simp [markGo, ha, hmark]

theorem markGo_idem : ∀ (ts : List Task) (T : String),
    (markGo (markGo ts T).1 T).1 = (markGo ts T).1 := by
  intro ts
  induction ts with
  | nil => intro T; rfl
  | cons t ts ih =>
    intro T
    by_cases h : t.title = T
    · simp [markGo, h, Task.mark_complete]
    · simp [markGo, h, ih T]

theorem addSeq_next : ∀ (l : List (String × String × String)) (s : Sys),
    (addSeq s l).next_number = s.next_number + (l.length : Int) := by
  intro l
  induction l with
  | nil => intro s; simp [addSeq]
  | cons a rest ih =>
    intro s
    have := ih (add_task s a.1 a.2.1 a.2.2)
    simp only [addSeq] at this ⊢
    rw [this]
    simp [add_task]
    omega

theorem addSeq_tasks : ∀ (l : List (String × String × String)) (s : Sys),
    (addSeq s l).tasks = s.tasks ++ newlyAdded s.next_number l := by
  intro l
  induction l with
  | nil => intro s; simp [addSeq, newlyAdded]
  | cons a rest ih =>
    intro s
    have := ih (add_task s a.1 a.2.1 a.2.2)
    simp only [addSeq] at this ⊢
    rw [this]
    simp [add_task, newlyAdded, List.append_assoc]

theorem newlyAdded_pairwise : ∀ (l : List (String × String × String)) (n : Int),
    List.Pairwise (· < ·) ((newlyAdded n l).filterMap Task.number) ∧
    ∀ x ∈ (newlyAdded n l).filterMap Task.number, n < x := by
  intro l
  induction l with
  | nil => intro n; exact ⟨List.Pairwise.nil, by simp [newlyAdded]⟩
  | cons a rest ih =>
    intro n
    rcases ih (n + 1) with ⟨hp, hb⟩
    have hred : (newlyAdded n (a :: rest)).filterMap Task.number
        = (n + 1) :: (newlyAdded (n + 1) rest).filterMap Task.number := by
      simp [newlyAdded, List.filterMap_cons, Task.number]
    constructor
    · rw [hred, List.pairwise_cons]
      exact ⟨fun x hx => by have := hb x hx; omega, hp⟩
    · intro x hx
      rw [hred] at hx
      rcases List.mem_cons.mp hx with rfl | hx2
      · omega
      · have := hb x hx2; omega

theorem fixTasks_len : ∀ (ts : List Task) (next : Int),
    ((fixTasks next ts).1).length = ts.length := by
  intro ts
  induction ts with
  | nil => intro next; rfl
  | cons t ts ih =>
    intro next
    cases h : t.number <;> simp [fixTasks, h, ih]

theorem fixTasks_some : ∀ (ts : List Task) (next : Int),
    ∀ t' ∈ (fixTasks next ts).1, (t'.number).isSome = true := by
  intro ts
  induction ts with
  | nil => intro next t' ht'; simp [fixTasks] at ht'
  | cons t ts ih =>
    intro next t' ht'
    cases h : t.number with
    | none =>
      simp only [fixTasks, h] at ht'
      rcases List.mem_cons.mp ht' with rfl | h2
      · rfl
      · exact ih _ t' h2
    | some k =>
      simp only [fixTasks, h] at ht'
      rcases List.mem_cons.mp ht' with rfl | h2
      · simp [h]
      · exact ih _ t' h2

theorem fixTasks_forall2 : ∀ (ts : List Task) (next : Int),
    List.Forall₂ (fun t' t => t'.title = t.title ∧ t'.description = t.description ∧
      t'.status = t.status ∧ t'.created = t.created ∧
      ∀ k, t.number = some k → t'.number = some k)
      ((fixTasks next ts).1) ts := by
  intro ts
  induction ts with
  | nil => intro next; exact List.Forall₂.nil
  | cons t ts ih =>
    intro next
    cases h : t.number with
    | none =>
      have hfix : (fixTasks next (t :: ts)).1
          = { t with number := some next } :: (fixTasks (max next (next + 1)) ts).1 := by
        simp [fixTasks, h]
      rw [hfix]
      refine List.Forall₂.cons ⟨rfl, rfl, rfl, rfl, ?_⟩ (ih _)
      intro k hk
      rw [h] at hk
      cases hk
    | some k =>
      have hfix : (fixTasks next (t :: ts)).1
          = t :: (fixTasks (max next (k + 1)) ts).1 := by
        simp [fixTasks, h]
      rw [hfix]
      exact List.Forall₂.cons ⟨rfl, rfl, rfl, rfl, fun k' hk' => hk'⟩ (ih _)

theorem fixTasks_pairwise : ∀ (ts : List Task) (next : Int),
    admissible next (ts.map Task.number) = true →
    List.Pairwise (· < ·) (((fixTasks next ts).1).filterMap Task.number) ∧
    ∀ x ∈ ((fixTasks next ts).1).filterMap Task.number, next ≤ x := by
  intro ts
  induction ts with
  | nil =>
    intro next _
    exact ⟨List.Pairwise.nil, by simp [fixTasks]⟩
  | cons t ts ih =>
    intro next h
    cases hn : t.number with
    | none =>
      rw [List.map_cons, hn] at h
      have h' : admissible (next + 1) (ts.map Task.number) = true := h
      have hmax : max next (next + 1) = next + 1 := max_eq_right (by omega)
      have hfix : (fixTasks next (t :: ts)).1
          = { t with number := some next } :: (fixTasks (next + 1) ts).1 := by
        simp [fixTasks, hn, hmax]
      rcases ih (next + 1) h' with ⟨hp, hb⟩
      have hred : ((fixTasks next (t :: ts)).1).filterMap Task.number
          = next :: ((fixTasks (next + 1) ts).1).filterMap Task.number := by
        rw [hfix]
        simp [List.filterMap_cons]
      constructor
      · rw [hred, List.pairwise_cons]
        exact ⟨fun x hx => by have := hb x hx; omega, hp⟩
      · intro x hx
        rw [hred] at hx
        rcases List.mem_cons.mp hx with rfl | hx2
        · omega
        · have := hb x hx2; omega
    | some k =>
      rw [List.map_cons, hn] at h
      simp only [admissible, Bool.and_eq_true, decide_eq_true_eq] at h
      have hmax : max next (k + 1) = k + 1 := max_eq_right (by omega)
      have hfix : (fixTasks next (t :: ts)).1
          = t :: (fixTasks (k + 1) ts).1 := by
        simp [fixTasks, hn, hmax]
      rcases ih (k + 1) h.2 with ⟨hp, hb⟩
      have hred : ((fixTasks next (t :: ts)).1).filterMap Task.number
          = k :: ((fixTasks (k + 1) ts).1).filterMap Task.number := by
        rw [hfix]
        simp [List.filterMap_cons, hn]
      constructor
      · rw [hred, List.pairwise_cons]
        exact ⟨fun x hx => by have := hb x hx; omega, hp⟩
      · intro x hx
        rw [hred] at hx
        rcases List.mem_cons.mp hx with rfl | hx2
        · omega
        · have := hb x hx2; omega

theorem map_number_eq : ∀ (l : List Task),
    (∀ t ∈ l, (t.number).isSome = true) →
    l.map Task.number = (l.filterMap Task.number).map some := by
  intro l
  induction l with
  | nil => intro _; rfl
  | cons t ts ih =>
    intro h
    cases hn : t.number with
    | none =>
      have := h t (List.mem_cons_self t ts)
      rw [hn] at this
      simp at this
    | some k =>
      have htail := ih (fun u hu => h u (List.mem_cons_of_mem t hu))
      simp [List.filterMap_cons, hn, htail]

theorem fixTasks_nodup (ts : List Task)
    (h : admissible 1 (ts.map Task.number) = true) :
    ((((fixTasks 1 ts).1).map Task.number)).Nodup := by
  have hp := (fixTasks_pairwise ts 1 h).1
  have hs := fixTasks_some ts 1
  rw [map_number_eq _ hs]
  have hnd : (((fixTasks 1 ts).1).filterMap Task.number).Nodup :=
    hp.imp (fun hlt => ne_of_lt hlt)
  exact hnd.map (Option.some_injective Int)

/-! ### Claim theorems -/

/-- C7: `load_tasks` on an absent file creates the file containing an empty
array and returns an empty list; on an unreadable or unparsable file it
returns an empty list without raising (it is a total function whose error
branch yields `[]`). -/
theorem C7_thm :
    load_tasks FileState.absent = (FileState.stored [], []) ∧
    load_tasks FileState.unreadable = (FileState.unreadable, []) :=
  ⟨rfl, rfl⟩

/-- C9: there is a persisted document that parses as well-formed JSON (a
list whose element lacks a `title` key, or is not an object) on which
`TaskManager.__init__` raises (`Task(**task)` raises `TypeError`, modelled
by `none`) instead of recovering with an empty or repaired collection. -/
theorem C9_thm :
    tmInit "2024-01-01 00:00:00" (FileState.stored
      [PDoc.objDoc { description := some "d" }]) = none ∧
    tmInit "2024-01-01 00:00:00" (FileState.stored [PDoc.nonObjDoc]) = none :=
  ⟨rfl, rfl⟩

/-- C10: `mark_task_complete` is idempotent on the in-memory collection:
applying it twice with the same title yields the same task list (and
counter) as applying it once. -/
theorem C10_thm (s : Sys) (title : String) :
    (mark_task_complete (mark_task_complete s title) title).tasks
      = (mark_task_complete s title).tasks ∧
    (mark_task_complete (mark_task_complete s title) title).next_number
      = (mark_task_complete s title).next_number := by
  constructor
  · show (markGo (markGo s.tasks title).1 title).1 = (markGo s.tasks title).1
    exact markGo_idem s.tasks title
  · rfl

/-- C8: saving any collection of task records and loading it back returns a
document with the same number of records, in the same order, whose objects
carry the same `title`, `description`, `status`, `created` and `number` as
the saved tasks. -/
theorem C8_thm (ts : List Task) (fs : FileState) :
    ((load_tasks (save_tasks (ts.map docOfTask) fs)).2).length = ts.length ∧
    List.Forall₂ (fun d t => d = PDoc.objDoc
        { title := some t.title, description := some t.description,
          status := some t.status, created := some t.created,
          number := t.number })
      ((load_tasks (save_tasks (ts.map docOfTask) fs)).2) ts := by
  have hld : (load_tasks (save_tasks (ts.map docOfTask) fs)).2
      = ts.map docOfTask := rfl
  rw [hld]
  constructor
  · simp
  · clear hld
    induction ts with
    | nil => exact List.Forall₂.nil
    | cons t ts ih => exact List.Forall₂.cons rfl ih

/-- C5: `add_task` always succeeds: it increments the counter and appends a
record with status Incomplete, `created` equal to the current timestamp and
`number` equal to the incremented counter, persisting the result; over any
sequence of adds the assigned numbers are `counter+1, counter+2, ...`,
strictly increasing and duplicate-free. -/
theorem C5_thm (s : Sys) (title description now : String)
    (l : List (String × String × String)) :
    (add_task s title description now).tasks
      = s.tasks ++ [{ title := title, description := description,
                      status := "Incomplete", created := now,
                      number := some (s.next_number + 1) }] ∧
    (add_task s title description now).next_number = s.next_number + 1 ∧
    (add_task s title description now).file
      = FileState.stored (((add_task s title description now).tasks).map docOfTask) ∧
    (addSeq s l).tasks = s.tasks ++ newlyAdded s.next_number l ∧
    List.Pairwise (· < ·) ((newlyAdded s.next_number l).filterMap Task.number) ∧
    ((newlyAdded s.next_number l).filterMap Task.number).Nodup := by
  refine ⟨rfl, rfl, rfl, addSeq_tasks l s, (newlyAdded_pairwise l s.next_number).1, ?_⟩
  exact ((newlyAdded_pairwise l s.next_number).1).imp (fun hlt => ne_of_lt hlt)

/-- C6: when some task matches the given title, `mark_task_complete` sets
the status of exactly the first match to Complete and changes nothing else:
the prefix before the match contains no matching title and is returned
unchanged, the suffix is unchanged, the completed record keeps its `title`,
`description`, `created` and `number`, and the list length and the counter
are unchanged. -/
theorem C6_thm (s : Sys) (T : String) (h : ∃ t ∈ s.tasks, t.title = T) :
    ∃ pre t post,
      s.tasks = pre ++ t :: post ∧
      (∀ u ∈ pre, u.title ≠ T) ∧
      t.title = T ∧
      (mark_task_complete s T).tasks = pre ++ t.mark_complete :: post ∧
      t.mark_complete.status = "Complete" ∧
      t.mark_complete.title = t.title ∧
      t.mark_complete.description = t.description ∧
      t.mark_complete.created = t.created ∧
      t.mark_complete.number = t.number ∧
      (mark_task_complete s T).tasks.length = s.tasks.length ∧
      (mark_task_complete s T).next_number = s.next_number := by
  rcases markGo_found s.tasks T h with ⟨pre, t, post, hts, hpre, htt, hmark⟩
  refine ⟨pre, t, post, hts, hpre, htt, ?_, rfl, rfl, rfl, rfl, rfl, ?_, rfl⟩
  · show (markGo s.tasks T).1 = pre ++ t.mark_complete :: post
    rw [hmark]
  · show ((markGo s.tasks T).1).length = s.tasks.length
    rw [hmark, hts]
    simp

/-- C6 witness: `add_task("A","d")` on an empty manager followed by
`mark_task_complete("A")` matches the first (only) record and yields
exactly one record, Complete, with all other fields unchanged. -/
theorem C6_thm_witness :
    (∃ t ∈ sys1.tasks, t.title = "A") ∧
    (∃ pre t post,
      sys1.tasks = pre ++ t :: post ∧
      (∀ u ∈ pre, u.title ≠ "A") ∧
      t.title = "A" ∧
      (mark_task_complete sys1 "A").tasks = pre ++ t.mark_complete :: post ∧
      t.mark_complete.status = "Complete" ∧
      t.mark_complete.title = t.title ∧
      t.mark_complete.description = t.description ∧
      t.mark_complete.created = t.created ∧
      t.mark_complete.number = t.number ∧
      (mark_task_complete sys1 "A").tasks.length = sys1.tasks.length ∧
      (mark_task_complete sys1 "A").next_number = sys1.next_number) ∧
    (mark_task_complete sys1 "A").tasks
      = [{ title := "A", description := "d", status := "Complete",
           created := "2024-01-01 00:00:00", number := some 1 }] :=
  ⟨by decide, C6_thm sys1 "A" (by decide), by decide⟩

/-- C2 counterexample: `clear_task` (and likewise a successful
`mark_task_complete`) does not re-persist before returning: starting from a
state whose file mirrors the one-task collection, after `clear_task` the
in-memory list is empty but the persisted document still holds the old
record (not an empty array), and after `mark_task_complete "A"` the
persisted document differs from the mutated in-memory collection. -/
theorem C2_cex :
    (clear_task sysC2).tasks = [] ∧
    (clear_task sysC2).file = FileState.stored [docOfTask taskC2] ∧
    FileState.stored [docOfTask taskC2] ≠ FileState.stored [] ∧
    (mark_task_complete sysC2 "A").file = sysC2.file ∧
    (mark_task_complete sysC2 "A").file
      ≠ FileState.stored (((mark_task_complete sysC2 "A").tasks).map docOfTask) := by
  refine ⟨rfl, rfl, by decide, rfl, by decide⟩

/-- C2 amended: only `add_task` persists before returning;
`mark_task_complete`, `delete_task`, `update_task` and `clear_task` leave
the persisted file untouched.  The menu loop's follow-up
`save_tasks([task.__dict__ ...])` (modelled by `loop_save`) is what makes
the persisted document equal the in-memory collection — in particular an
empty array after `clear_task` plus the loop save. -/
theorem C2_amended (s : Sys) (title description now i1 i2 : String)
    (nt nd : Option String) :
    (add_task s title description now).file
      = FileState.stored (((add_task s title description now).tasks).map docOfTask) ∧
    (mark_task_complete s title).file = s.file ∧
    (delete_task s title).file = s.file ∧
    (update_task s title nt nd i1 i2).file = s.file ∧
    (clear_task s).file = s.file ∧
    (loop_save (clear_task s)).file = FileState.stored [] ∧
    ∀ s2 : Sys, (loop_save s2).file = FileState.stored ((s2.tasks).map docOfTask) :=
  ⟨rfl, rfl, rfl, rfl, rfl, rfl, fun _ => rfl⟩

/-- C3 evaluated at the failing input: with one task "A" and supplied
replacement values "B"/"D", `update_task` ignores the supplied parameters —
they are shadowed by the `input()` calls — and instead installs the
interactively solicited values "C"/"E". -/
theorem C3_thm :
    (update_task sysC3 "A" (some "B") (some "D") "C" "E").tasks
      = [{ title := "C", description := "E", status := "Incomplete",
           created := "c", number := some 1 }] ∧
    (update_task sysC3 "A" (some "B") (some "D") "C" "E").tasks
      ≠ [{ title := "B", description := "D", status := "Incomplete",
           created := "c", number := some 1 }] := by
  refine ⟨rfl, by decide⟩

/-- C4 counterexample: the lookup operations do not return a structured
success/not-found result.  The Python methods return `None` on every path,
so the caller observes only the mutated state; here a *successful*
`mark_task_complete "A"` (the task exists, already Complete) and a
*not-found* `mark_task_complete "B"` leave identical task lists, counters
and files — only the console text (presentation, per the spec not a return
value) differs, so the two outcomes are indistinguishable to the caller. -/
theorem C4_cex :
    (∃ t ∈ sysC4.tasks, t.title = "A") ∧
    (¬ ∃ t ∈ sysC4.tasks, t.title = "B") ∧
    (mark_task_complete sysC4 "A").tasks = (mark_task_complete sysC4 "B").tasks ∧
    (mark_task_complete sysC4 "A").file = (mark_task_complete sysC4 "B").file ∧
    (mark_task_complete sysC4 "A").next_number
      = (mark_task_complete sysC4 "B").next_number := by
  refine ⟨by decide, by decide, by decide, rfl, rfl⟩

/-- C4 amended: on a collection with no record of the given title,
`mark_task_complete`, `delete_task` and `update_task` do not raise and
leave the in-memory collection, the counter and the persisted file
unchanged; the not-found condition is only reported by printing
`No task with title "..." found.` — the methods return `None`, not a
structured result. -/
theorem C4_amended (s : Sys) (title : String) (nt nd : Option String)
    (i1 i2 : String) (h : ∀ t ∈ s.tasks, t.title ≠ title) :
    mark_task_complete s title = { s with out := s.out ++ [notFoundMsg title] } ∧
    delete_task s title = { s with out := s.out ++ [notFoundMsg title] } ∧
    update_task s title nt nd i1 i2
      = { s with out := s.out ++ [notFoundMsg title] } := by
  refine ⟨?_, ?_, ?_⟩
  · simp [mark_task_complete, markGo_not_found s.tasks title h]
  · simp [delete_task, deleteGo_not_found s.tasks title h]
  · simp [update_task, updateGo_not_found i1 i2 s.tasks title h]

/-- C4 amended witness: deleting/completing/updating title "B" in the
state whose only task is "A" leaves everything but the console unchanged. -/
theorem C4_amended_witness :
    (∀ t ∈ sysC4.tasks, t.title ≠ "B") ∧
    mark_task_complete sysC4 "B"
      = { sysC4 with out := sysC4.out ++ [notFoundMsg "B"] } :=
  ⟨by decide, (C4_amended sysC4 "B" none none "" "" (by decide)).1⟩

/-- C1 counterexample: loading the two-record document
`[{number: missing}, {number: 1}]` at initialize assigns the first record
number 1 (the running next value, not one past the file's maximum), so the
repaired collection has numbers `[1, 1]` — not unique, and the assigned
value 1 is also used by a later record. -/
theorem C1_cex :
    (tmInit "2024-01-01 00:00:00" (FileState.stored
        [PDoc.objDoc { title := some "a", description := some "x",
                       created := some "c", number := none },
         PDoc.objDoc { title := some "b", description := some "y",
                       created := some "c", number := some 1 }])).map
      (fun s => (s.tasks).map Task.number) = some [some 1, some 1] ∧
    ¬ (([some (1 : Int), some 1] : List (Option Int)).Nodup) := by
  refine ⟨rfl, by decide⟩

/-- C1 amended: when record reconstruction succeeds, initialize applies
the number-repair pass `fixTasks 1` and re-persists the repaired
collection; the pass preserves length and every field except a missing
`number`, leaves present integer numbers unchanged, gives every record an
integer number, and — provided each loaded integer number is at least the
running next value at its position (`admissible`) — the resulting numbers
are strictly increasing, hence unique.  (Without the proviso duplicates
can remain, as `C1_cex` shows.) -/
theorem C1_amended (now : String) (ds : List PDoc) (ts : List Task)
    (h : ds.mapM (taskOfDoc now) = some ts) :
    tmInit now (FileState.stored ds)
      = some { tasks := (fixTasks 1 ts).1,
               next_number := (fixTasks 1 ts).2 - 1,
               file := FileState.stored (((fixTasks 1 ts).1).map docOfTask),
               out := [] } ∧
    ((fixTasks 1 ts).1).length = ts.length ∧
    (∀ t ∈ (fixTasks 1 ts).1, (t.number).isSome = true) ∧
    List.Forall₂ (fun t' t => t'.title = t.title ∧ t'.description = t.description ∧
      t'.status = t.status ∧ t'.created = t.created ∧
      ∀ k, t.number = some k → t'.number = some k)
      ((fixTasks 1 ts).1) ts ∧
    (admissible 1 (ts.map Task.number) = true →
      (((fixTasks 1 ts).1).map Task.number).Nodup) := by
  refine ⟨?_, fixTasks_len ts 1, fixTasks_some ts 1, fixTasks_forall2 ts 1,
    fun ha => fixTasks_nodup ts ha⟩
  have hm : tmInit now (FileState.stored ds)
      = match ds.mapM (taskOfDoc now) with
        | none => none
        | some ts =>
          some { tasks := (fixTasks 1 ts).1,
                 next_number := (fixTasks 1 ts).2 - 1,
                 file := FileState.stored (((fixTasks 1 ts).1).map docOfTask),
                 out := [] } := rfl
  rw [hm, h]

/-- C1 amended witness: the document `[{number: 1}, {number: missing}]`
reconstructs successfully, satisfies the proviso, and repairs to the
duplicate-free numbers `[1, 2]`. -/
theorem C1_amended_witness :
    (dsC1.mapM (taskOfDoc "2024-01-01 00:00:00") = some tsC1) ∧
    (admissible 1 (tsC1.map Task.number) = true) ∧
    ((((fixTasks 1 tsC1).1).map Task.number).Nodup) :=
  ⟨by decide, by decide,
   (C1_amended "2024-01-01 00:00:00" dsC1 tsC1 (by decide)).2.2.2.2 (by decide)⟩

end TaskMgr
